import Mathlib

/-!
Verification of the traffic-light detector node (`ros/src/tl_detector/tl_detector.py`).

The Python source is shallowly embedded: every float quantity is modelled as an
exact rational (`ℚ`), callback-mutable attributes become explicit state values
threaded through the functions, and Python-level runtime exceptions become
`Except.error` results with a named `PyErr` constructor.  The opaque external
collaborators (the image classifier and the ROS transform listener) enter as
function parameters or as an `Option` lookup result.
-/

namespace TLDetector

/-- Color code RED of the styx_msgs TrafficLight message (uint8 RED = 0). -/
def RED : Nat := 0

/-- Color code YELLOW of the styx_msgs TrafficLight message (uint8 YELLOW = 1). -/
def YELLOW : Nat := 1

/-- Color code GREEN of the styx_msgs TrafficLight message (uint8 GREEN = 2). -/
def GREEN : Nat := 2

/-- Color code UNKNOWN of the styx_msgs TrafficLight message (uint8 UNKNOWN = 4). -/
def UNKNOWN : Nat := 4

/-- Debounce threshold, tl_detector.py line 16. -/
def STATE_COUNT_THRESHOLD : Nat := 3

/-- Planar position (a Pose position restricted to the x and y fields, which are
the only ones the nearest-waypoint scan reads). -/
structure Point2 where
  x : ℚ
  y : ℚ
deriving DecidableEq, Repr

/-- Spatial position, as read from a TrafficLight pose. -/
structure Point3 where
  x : ℚ
  y : ℚ
  z : ℚ
deriving DecidableEq, Repr

/-- Squared planar distance, the quantity computed at lines 113-114. -/
def dist2 (wp pose : Point2) : ℚ :=
  (wp.x - pose.x) ^ 2 + (wp.y - pose.y) ^ 2

/-- Loop body of `get_closest_waypoint` (lines 112-117).  The loop state is the
pair (min_distance, min_dist_ind); `min_distance` starts as Python `None`,
modelled by `Option`.  The Python 2 condition
`distance < min_distance or min_distance is None` is taken with its Python 2
semantics: a float compares as not-less-than `None`, so the condition holds iff
`min_distance` is `None` or the new distance is strictly smaller. -/
def gcwLoop (pose : Point2) : List Point2 → Nat → Option ℚ → Int → Option ℚ × Int
  | [], _, min_distance, min_dist_ind => (min_distance, min_dist_ind)
  | wp :: rest, i, min_distance, min_dist_ind =>
    match min_distance with
    | none => gcwLoop pose rest (i + 1) (some (dist2 wp pose)) (Int.ofNat i)
    | some m =>
      if dist2 wp pose < m then gcwLoop pose rest (i + 1) (some (dist2 wp pose)) (Int.ofNat i)
      else gcwLoop pose rest (i + 1) (some m) min_dist_ind

/-- Embedding of `TLDetector.get_closest_waypoint` (lines 96-119).  The stored
`self.waypoints` is `none` when unset; a waypoint is reduced to its planar
position. -/
def get_closest_waypoint (waypoints : Option (List Point2)) (pose : Point2) : Int :=
  match waypoints with
  | none => -1
  | some wps => (gcwLoop pose wps 0 none (-1)).2

/-- A traffic light: its position and the simulator ground-truth color field
(carried but never consulted by the detector's classification path). -/
structure Light where
  pos : Point3
  state : Nat
deriving DecidableEq, Repr

/-- Squared planar distance from a stop-line position (an (x, y) pair from the
configuration) to a light position, the quantity of line 230. -/
def sldist (sl : ℚ × ℚ) (lp : Point2) : ℚ :=
  (sl.1 - lp.x) ^ 2 + (sl.2 - lp.y) ^ 2

/-- Inner loop of `process_traffic_lights` (lines 227-234): scan the stop-line
positions keeping the running (min_dist, stop_pose) pair.  `stop_pose` is only
overwritten when a strictly smaller distance than the running minimum is seen,
so it retains its incoming value when every stop line is at squared distance at
least `min_dist` (the caller passes the literal 1000000 of line 227). -/
def nearestStopLoop (lp : Point2) : List (ℚ × ℚ) → ℚ → Point2 → ℚ × Point2
  | [], min_dist, stop_pose => (min_dist, stop_pose)
  | sl :: rest, min_dist, stop_pose =>
    if sldist sl lp < min_dist then nearestStopLoop lp rest (sldist sl lp) ⟨sl.1, sl.2⟩
    else nearestStopLoop lp rest min_dist stop_pose

/-- Value of the shared `stop_pose` object after the inner loop of lines
227-234 has run for light `li`, starting from its value `sp` left by the
previous light (1000000 is the initialization of `min_dist` at line 227). -/
def nextStopPose (stop_line_positions : List (ℚ × ℚ)) (li : Light) (sp : Point2) : Point2 :=
  (nearestStopLoop ⟨li.pos.x, li.pos.y⟩ stop_line_positions 1000000 sp).2

/-- Resolved stop index `light_wp_i` of line 236 for light `li`: the waypoint
closest to the stop pose selected for `li` (which starts from the previous
value `sp` of the shared `stop_pose`). -/
def lightWp (w : Option (List Point2)) (stop_line_positions : List (ℚ × ℚ))
    (li : Light) (sp : Point2) : Int :=
  get_closest_waypoint w (nextStopPose stop_line_positions li sp)

/-- Outer loop of `process_traffic_lights` (lines 223-240): iterate over the
lights, threading the shared mutable `stop_pose` object and the running best
(light_wp, light) pair.  A light is a candidate when its resolved waypoint index
is at or ahead of the car and is not the -1 sentinel (line 237); among
candidates the smallest resolved index is kept (line 238). -/
def assocLoop (w : Option (List Point2)) (stop_line_positions : List (ℚ × ℚ)) (car : Int) :
    List Light → Point2 → Option Int → Option Light → Point2 × Option Int × Option Light
  | [], stop_pose, light_wp, light => (stop_pose, light_wp, light)
  | li :: rest, stop_pose, light_wp, light =>
    if car ≤ lightWp w stop_line_positions li stop_pose ∧
        lightWp w stop_line_positions li stop_pose ≠ -1 then
      match light_wp with
      | none =>
        assocLoop w stop_line_positions car rest (nextStopPose stop_line_positions li stop_pose)
          (some (lightWp w stop_line_positions li stop_pose)) (some li)
      | some lw =>
        if lightWp w stop_line_positions li stop_pose < lw then
          assocLoop w stop_line_positions car rest (nextStopPose stop_line_positions li stop_pose)
            (some (lightWp w stop_line_positions li stop_pose)) (some li)
        else
          assocLoop w stop_line_positions car rest (nextStopPose stop_line_positions li stop_pose)
            light_wp light
    else
      assocLoop w stop_line_positions car rest (nextStopPose stop_line_positions li stop_pose)
        light_wp light

/-- Resolved candidate stop indices, in light order: the value `light_wp_i` that
the loop of lines 223-240 computes for each light, kept when it passes the
filter of line 237.  The stop_pose threading is the same as in `assocLoop`, so
each entry is exactly the index the source resolves for that light. -/
def candList (w : Option (List Point2)) (stop_line_positions : List (ℚ × ℚ)) (car : Int) :
    List Light → Point2 → List Int
  | [], _ => []
  | li :: rest, stop_pose =>
    (if car ≤ lightWp w stop_line_positions li stop_pose ∧
        lightWp w stop_line_positions li stop_pose ≠ -1
     then [lightWp w stop_line_positions li stop_pose] else []) ++
      candList w stop_line_positions car rest (nextStopPose stop_line_positions li stop_pose)

/-- Value returned by `get_light_state`: either a color code from the
classifier, or the literal Python `False` returned on the no-image path
(line 182).  `pyFalse` is kept distinct here; note that in Python it compares
equal to `0`, which is the RED color code. -/
inductive GLSResult
  | color (c : Nat)
  | pyFalse
deriving DecidableEq, Repr

/-- Python runtime exceptions that the embedded code can raise:
`typeError` for `None - int` (line 243 when no candidate light was found),
`nameError` for reading the never-assigned `rot` after a failed transform
lookup (line 154), and `overflowError` for `int()` applied to the infinite or
NaN quotient produced by a zero third homogeneous coordinate (lines 164-165). -/
inductive PyErr
  | typeError
  | nameError
  | overflowError
deriving DecidableEq, Repr

/-- Snapshot of the callback-mutable attributes that `process_traffic_lights`
reads or writes: `self.pose`, `self.waypoints`, `self.lights`. -/
structure DetectorSnap where
  pose : Option Point2
  waypoints : Option (List Point2)
  lights : List Light
deriving DecidableEq, Repr

/-- Embedding of `TLDetector.process_traffic_lights` (lines 201-250).  The
external classifier chain behind `get_light_state` is the opaque parameter
`gls`.  The result carries the returned pair and the updated snapshot, since
line 249 assigns `self.waypoints = None` on the fall-through path.  When no
candidate light was found, `light_wp` is still Python `None` at line 243 and
`None - car_position` raises a TypeError, modelled as `Except.error`. -/
def process_traffic_lights (gls : Light → GLSResult) (stop_line_positions : List (ℚ × ℚ))
    (s : DetectorSnap) : Except PyErr ((Int × GLSResult) × DetectorSnap) :=
  match s.pose with
  | none => Except.ok ((-1, GLSResult.color UNKNOWN), { s with waypoints := none })
  | some p =>
    let car_position := get_closest_waypoint s.waypoints p
    let r := assocLoop s.waypoints stop_line_positions car_position s.lights ⟨0, 0⟩ none none
    match r.2.1, r.2.2 with
    | none, _ => Except.error PyErr.typeError
    | some light_wp, some light =>
      if light_wp - car_position < 100 then Except.ok ((light_wp, gls light), s)
      else Except.ok ((-1, GLSResult.color UNKNOWN), { s with waypoints := none })
    | some _, none => Except.ok ((-1, GLSResult.color UNKNOWN), { s with waypoints := none })

/-- Homogeneous transform produced by `fromTranslationRotation`: the top three
rows of the 4x4 matrix (rotation part and translation column). -/
structure Transform3 where
  r00 : ℚ
  r01 : ℚ
  r02 : ℚ
  t0 : ℚ
  r10 : ℚ
  r11 : ℚ
  r12 : ℚ
  t1 : ℚ
  r20 : ℚ
  r21 : ℚ
  r22 : ℚ
  t2 : ℚ
deriving DecidableEq, Repr

/-- First coordinate of `(RT * point_3d)[:-1, :]` (line 162). -/
def camX (T : Transform3) (p : Point3) : ℚ := T.r00 * p.x + T.r01 * p.y + T.r02 * p.z + T.t0

/-- Second coordinate of `(RT * point_3d)[:-1, :]` (line 162). -/
def camY (T : Transform3) (p : Point3) : ℚ := T.r10 * p.x + T.r11 * p.y + T.r12 * p.z + T.t1

/-- Third coordinate of `(RT * point_3d)[:-1, :]` (line 162); this is the value
that divides the pixel numerators at lines 164-165. -/
def camZ (T : Transform3) (p : Point3) : ℚ := T.r20 * p.x + T.r21 * p.y + T.r22 * p.z + T.t2

/-- Python `int()` applied to an exact rational: truncation toward zero. -/
def pyInt (q : ℚ) : Int := q.num.tdiv (q.den : Int)

/-- Embedding of `TLDetector.project_to_image_plane` (lines 121-167).  The
transform listener is modelled by its outcome `tfRes`: `none` means the
`waitForTransform` / `lookupTransform` pair raised, in which case the source
logs and falls through to line 154 where it reads the never-assigned local
`rot`, raising a NameError.  On success the pixel pair follows the matrix
product of lines 154-165; when the third homogeneous coordinate is zero the
float division yields inf or NaN and `int()` raises, modelled as
`overflowError`. -/
def project_to_image_plane (fx fy : ℚ) (image_width image_height : Int)
    (tfRes : Option Transform3) (p : Point3) : Except PyErr (Int × Int) :=
  match tfRes with
  | none => Except.error PyErr.nameError
  | some T =>
    let row0 := fx * camX T p + ((image_width / 2 : Int) : ℚ) * camZ T p
    let row1 := fy * camY T p + ((image_height / 2 : Int) : ℚ) * camZ T p
    if camZ T p = 0 then Except.error PyErr.overflowError
    else Except.ok (pyInt (row0 / camZ T p), pyInt (row1 / camZ T p))

/-- Embedding of `TLDetector.get_light_state` (lines 170-199).  The classifier
is the opaque parameter `classify`, applied to the clamped crop bounds computed
at lines 193-194 from the projected pixel and the image shape (imgH, imgW).
When `self.has_image` is false the function returns the literal Python `False`
(line 182). -/
def get_light_state (fx fy : ℚ) (image_width image_height : Int)
    (tfRes : Option Transform3) (classify : Int × Int × Int × Int → Nat)
    (has_image : Bool) (imgW imgH : Int) (lightPos : Point3) : Except PyErr GLSResult :=
  if !has_image then Except.ok GLSResult.pyFalse
  else
    match project_to_image_plane fx fy image_width image_height tfRes lightPos with
    | Except.error e => Except.error e
    | Except.ok (x, y) =>
      let x0 := max (x - 16) 0
      let x1 := min (x + 16) imgW
      let y0 := max (y - 16) 0
      let y1 := min (y + 16) imgH
      Except.ok (GLSResult.color (classify (x0, x1, y0, y1)))

/-- Stabilizer state of the detector: `self.state`, `self.last_state`,
`self.last_wp`, `self.state_count` (lines 50-53). -/
structure StabState where
  state : Nat
  last_state : Nat
  last_wp : Int
  state_count : Nat
deriving DecidableEq, Repr

/-- Embedding of the debounce block of `TLDetector.image_cb` (lines 84-94),
given the `(light_wp, state)` pair obtained from `process_traffic_lights`.
Returns the updated stabilizer state and the value published this pass (`none`
when the pass publishes nothing).  On the raw-state-change branch the counter
is assigned 0 and then, like on every branch, incremented by the trailing
`self.state_count += 1`, so it ends the pass at 1. -/
def image_cb_step (s : StabState) (light_wp : Int) (raw : Nat) : StabState × Option Int :=
  if s.state ≠ raw then
    ({ s with state := raw, state_count := 0 + 1 }, none)
  else if STATE_COUNT_THRESHOLD ≤ s.state_count then
    let lw := if raw = RED then light_wp else -1
    ({ s with last_state := s.state, last_wp := lw, state_count := s.state_count + 1 }, some lw)
  else
    ({ s with state_count := s.state_count + 1 }, some s.last_wp)

/-- Iterated stabilizer passes: feed a sequence of `(light_wp, raw)` readings
and collect, in order, what each pass published. -/
def runSeq : StabState → List (Int × Nat) → StabState × List (Option Int)
  | s, [] => (s, [])
  | s, inp :: rest =>
    let r := image_cb_step s inp.1 inp.2
    let t := runSeq r.1 rest
    (t.1, r.2 :: t.2)

/-- Constant classifier stub used in the concrete scenarios. -/
def glsStub : Light → GLSResult := fun _ => GLSResult.color UNKNOWN

/-- C7: when the transform lookup raises (modelled by `tfRes = none`), the
source logs at line 149 and then falls through to line 154, which reads the
local variable `rot` that the failed `try` block never assigned: the call dies
with a NameError instead of failing cleanly as TransformUnavailable with the
pass treated as an UNKNOWN raw color.  This contradicts the recovery intent of
the except handler itself, so the claim is right and the code is wrong. -/
theorem C7_transform_failure (fx fy : ℚ) (image_width image_height : Int) (p : Point3) :
    project_to_image_plane fx fy image_width image_height none p =
      Except.error PyErr.nameError :=
  rfl

/-- C10: when `self.has_image` is false, `get_light_state` returns the literal
Python `False` (line 182), not the UNKNOWN color code (4).  In Python `False`
compares equal to `0`, which is the RED code, so downstream the no-image pass
acts like a RED reading; this contradicts both the claim and the function's own
docstring (which promises an int color ID). -/
theorem C10_no_image (fx fy : ℚ) (image_width image_height : Int)
    (tfRes : Option Transform3) (classify : Int × Int × Int × Int → Nat)
    (imgW imgH : Int) (lightPos : Point3) :
    get_light_state fx fy image_width image_height tfRes classify false imgW imgH lightPos =
      Except.ok GLSResult.pyFalse ∧
    GLSResult.pyFalse ≠ GLSResult.color UNKNOWN := by
  refine ⟨rfl, ?_⟩
  intro h
  exact GLSResult.noConfusion h

/-- C2: with a vehicle pose available but an empty light list (first conjunct)
or an unset path (second conjunct), no candidate light is ever recorded, so
`light_wp` is still Python `None` when line 243 evaluates
`light_wp - car_position`: the pass raises a TypeError instead of returning
(-1, UNKNOWN).  The spec (section 9) itself flags this undefined-variable path,
so the claim is right and the code is wrong. -/
theorem C2_none_outcome_crash :
    process_traffic_lights glsStub [(10, 10)] ⟨some ⟨0, 0⟩, some [⟨0, 0⟩], []⟩ =
      Except.error PyErr.typeError ∧
    process_traffic_lights glsStub [(10, 10)] ⟨some ⟨0, 0⟩, none, [⟨⟨5, 5, 0⟩, 0⟩]⟩ =
      Except.error PyErr.typeError := by
  exact ⟨by with_unfolding_all rfl, by with_unfolding_all rfl⟩

/-- C1 counterexample: from the stable prior state (state = last_state =
UNKNOWN, state_count = 5, last published value -1), three consecutive RED
readings with stop index 42 publish [nothing, -1, -1]: the third (= Nth, with
N = STATE_COUNT_THRESHOLD = 3) consecutive RED does not change the published
value to the stop index 42, contrary to the claim. -/
theorem C1_cex :
    (runSeq ⟨4, 4, -1, 5⟩ [(42, RED), (42, RED), (42, RED)]).2 =
      [none, some (-1), some (-1)] ∧
    ∀ o ∈ (runSeq ⟨4, 4, -1, 5⟩ [(42, RED), (42, RED), (42, RED)]).2, o ≠ some 42 := by
  exact ⟨by decide, by decide⟩

/-- C1 (amended): from any prior state whose observed raw color is not RED,
the first pass of a RED run publishes nothing and resets the counter, passes
2..N (N = STATE_COUNT_THRESHOLD = 3) republish the previously remembered value
unchanged, and the (N+1)-th consecutive RED is the first to publish the stop
index; a non-RED reading arriving while RED is the observed color publishes
nothing and restarts the counter (assigned 0, then incremented to 1 for the
new reading). -/
theorem C1_debounce (s s2 : StabState) (wp wp2 : Int) (raw2 : Nat)
    (h : s.state ≠ RED) (h2 : s2.state = RED) (hraw : raw2 ≠ RED) :
    (runSeq s [(wp, RED), (wp, RED)]).2 = [none, some s.last_wp] ∧
    (runSeq s [(wp, RED), (wp, RED), (wp, RED)]).2 =
      [none, some s.last_wp, some s.last_wp] ∧
    (runSeq s [(wp, RED), (wp, RED), (wp, RED), (wp, RED)]).2 =
      [none, some s.last_wp, some s.last_wp, some wp] ∧
    (image_cb_step s2 wp2 raw2).1.state_count = 1 ∧
    (image_cb_step s2 wp2 raw2).1.state = raw2 ∧
    (image_cb_step s2 wp2 raw2).2 = none := by
  have hr : s2.state ≠ raw2 := by rw [h2]; exact fun e => hraw e.symm
  refine ⟨?_, ?_, ?_, ?_, ?_, ?_⟩ <;>
    simp [runSeq, image_cb_step, STATE_COUNT_THRESHOLD, h, hr]

/-- C1 witness: the general debounce theorem applied to the concrete stable
prior state (UNKNOWN, UNKNOWN, -1, 5) with stop index 42, and to the mid-run
RED state (RED, UNKNOWN, -1, 2) hit by a GREEN reading. -/
theorem C1_debounce_witness :
    (runSeq ⟨4, 4, -1, 5⟩ [(42, RED), (42, RED)]).2 = [none, some (-1)] ∧
    (runSeq ⟨4, 4, -1, 5⟩ [(42, RED), (42, RED), (42, RED)]).2 =
      [none, some (-1), some (-1)] ∧
    (runSeq ⟨4, 4, -1, 5⟩ [(42, RED), (42, RED), (42, RED), (42, RED)]).2 =
      [none, some (-1), some (-1), some 42] ∧
    (image_cb_step ⟨0, 4, -1, 2⟩ 7 2).1.state_count = 1 ∧
    (image_cb_step ⟨0, 4, -1, 2⟩ 7 2).1.state = 2 ∧
    (image_cb_step ⟨0, 4, -1, 2⟩ 7 2).2 = none :=
  C1_debounce ⟨4, 4, -1, 5⟩ ⟨0, 4, -1, 2⟩ 42 7 2 (by decide) (by decide) (by decide)

/-- C4 counterexample: a pass on which the raw classification differs from the
previously observed one (here prior observed color UNKNOWN, raw RED) publishes
nothing at all, contrary to the claim that every pass publishes exactly one
integer. -/
theorem C4_cex : (image_cb_step ⟨4, 4, -1, 5⟩ 42 RED).2 = none := by decide

/-- C4 (amended): a pass whose raw classification differs from the previously
observed one publishes nothing (it only stores the new raw color and resets
the counter); every other pass publishes exactly one integer, and when the
consecutive count is still below STATE_COUNT_THRESHOLD that integer is the
remembered last-published value, unchanged. -/
theorem C4_publish (s : StabState) (wp : Int) (raw : Nat) :
    (s.state ≠ raw → (image_cb_step s wp raw).2 = none) ∧
    (s.state = raw → STATE_COUNT_THRESHOLD ≤ s.state_count →
      (image_cb_step s wp raw).2 = some (if raw = RED then wp else -1)) ∧
    (s.state = raw → s.state_count < STATE_COUNT_THRESHOLD →
      (image_cb_step s wp raw).2 = some s.last_wp) := by
  refine ⟨fun h => ?_, fun h hc => ?_, fun h hc => ?_⟩
  · simp [image_cb_step, h]
  · simp [image_cb_step, h, hc]
  · simp [image_cb_step, h, hc, Nat.not_le.mpr hc]

/-- C4 witness: the publication-shape theorem applied to the concrete state
(RED, RED, -1, 1) receiving another RED with stop index 9: the count 1 is
below the threshold, so the pass republishes the remembered -1. -/
theorem C4_publish_witness : (image_cb_step ⟨0, 0, -1, 1⟩ 9 0).2 = some (-1) :=
  (C4_publish ⟨0, 0, -1, 1⟩ 9 0).2.2 rfl (by decide)

/-- C8 counterexample: under the identity transform, the point (1, 2, -5) has
camera-frame depth -5 (non-positive), yet the projection succeeds and returns
the integer pixel pair (399, 299) instead of being handled as a defined
failure, contrary to the claim. -/
theorem C8_cex :
    camZ ⟨1, 0, 0, 0, 0, 1, 0, 0, 0, 0, 1, 0⟩ ⟨1, 2, -5⟩ < 0 ∧
    project_to_image_plane 1 1 800 600 (some ⟨1, 0, 0, 0, 0, 1, 0, 0, 0, 0, 1, 0⟩) ⟨1, 2, -5⟩ =
      Except.ok (399, 299) := by
  exact ⟨by with_unfolding_all decide, by with_unfolding_all rfl⟩

/-- C8 (amended): with a transform available, whenever the transformed point
has nonzero depth (positive or negative), projection deterministically returns
the integer pixel pair of the pinhole formula fx·Xc/Zc + width/2,
fy·Yc/Zc + height/2 with truncation toward zero; when the depth is exactly
zero, the float division produces inf or NaN and the `int()` conversion raises
(modelled as `overflowError`), so only the zero-depth case fails, and not as a
defined failure but as an uncaught exception. -/
theorem C8_projection (fx fy : ℚ) (image_width image_height : Int)
    (T : Transform3) (p : Point3) :
    (camZ T p ≠ 0 →
      project_to_image_plane fx fy image_width image_height (some T) p =
        Except.ok
          (pyInt (fx * camX T p / camZ T p + ((image_width / 2 : Int) : ℚ)),
           pyInt (fy * camY T p / camZ T p + ((image_height / 2 : Int) : ℚ)))) ∧
    (camZ T p = 0 →
      project_to_image_plane fx fy image_width image_height (some T) p =
        Except.error PyErr.overflowError) := by
  constructor
  · intro hz
    have e1 : (fx * camX T p + ((image_width / 2 : Int) : ℚ) * camZ T p) / camZ T p =
        fx * camX T p / camZ T p + ((image_width / 2 : Int) : ℚ) := by
      rw [add_div, mul_div_cancel_right₀ _ hz]
    have e2 : (fy * camY T p + ((image_height / 2 : Int) : ℚ) * camZ T p) / camZ T p =
        fy * camY T p / camZ T p + ((image_height / 2 : Int) : ℚ) := by
      rw [add_div, mul_div_cancel_right₀ _ hz]
    simp only [project_to_image_plane, if_neg hz, e1, e2]
  · intro hz
    simp only [project_to_image_plane, if_pos hz]

/-- C8 witness: the projection theorem applied to the identity transform and
the point (0, 0, 10) of positive depth 10 with fx = fy = 2 and an 800x600
image: the pixel pair is (400, 300). -/
theorem C8_projection_witness :
    project_to_image_plane 2 2 800 600 (some ⟨1, 0, 0, 0, 0, 1, 0, 0, 0, 0, 1, 0⟩) ⟨0, 0, 10⟩ =
      Except.ok (400, 300) := by
  have h := (C8_projection 2 2 800 600 ⟨1, 0, 0, 0, 0, 1, 0, 0, 0, 0, 1, 0⟩ ⟨0, 0, 10⟩).1
    (by with_unfolding_all decide)
  rw [h]
  with_unfolding_all rfl

/-- Unfolding: head waypoint with no running minimum yet (first iteration). -/
theorem gcwLoop_cons_none (pose wp : Point2) (rest : List Point2) (i : Nat) (best : Int) :
    gcwLoop pose (wp :: rest) i none best =
      gcwLoop pose rest (i + 1) (some (dist2 wp pose)) (Int.ofNat i) := rfl

/-- Unfolding: head waypoint strictly improves the running minimum. -/
theorem gcwLoop_cons_lt (pose wp : Point2) (rest : List Point2) (i : Nat) (m : ℚ) (best : Int)
    (h : dist2 wp pose < m) :
    gcwLoop pose (wp :: rest) i (some m) best =
      gcwLoop pose rest (i + 1) (some (dist2 wp pose)) (Int.ofNat i) := by
  simp [gcwLoop, h]

/-- Unfolding: head waypoint does not improve the running minimum. -/
theorem gcwLoop_cons_ge (pose wp : Point2) (rest : List Point2) (i : Nat) (m : ℚ) (best : Int)
    (h : ¬ dist2 wp pose < m) :
    gcwLoop pose (wp :: rest) i (some m) best = gcwLoop pose rest (i + 1) (some m) best := by
  simp [gcwLoop, h]

/-- Invariant of the scan of lines 112-117 once a running minimum exists:
either no later waypoint strictly improves it and the accumulators are
returned, or the scan returns the first waypoint of the remainder that
achieves the final minimum, with every earlier one strictly worse. -/
theorem gcwLoop_spec (pose : Point2) :
    ∀ (l : List Point2) (i : Nat) (m : ℚ) (best : Int),
      (gcwLoop pose l i (some m) best = (some m, best) ∧ ∀ wp ∈ l, m ≤ dist2 wp pose) ∨
      (∃ j : Nat, ∃ hj : j < l.length,
        gcwLoop pose l i (some m) best =
          (some (dist2 (l.get ⟨j, hj⟩) pose), Int.ofNat (i + j)) ∧
        dist2 (l.get ⟨j, hj⟩) pose < m ∧
        (∀ wp ∈ l, dist2 (l.get ⟨j, hj⟩) pose ≤ dist2 wp pose) ∧
        (∀ j2 : Nat, ∀ hj2 : j2 < j,
          dist2 (l.get ⟨j, hj⟩) pose < dist2 (l.get ⟨j2, Nat.lt_trans hj2 hj⟩) pose)) := by
  intro l
  induction l with
  | nil =>
    intro i m best
    left
    exact ⟨rfl, by simp⟩
  | cons wp rest ih =>
    intro i m best
    by_cases h : dist2 wp pose < m
    · rcases ih (i + 1) (dist2 wp pose) (Int.ofNat i) with
        ⟨heq, hall⟩ | ⟨j, hj, heq, hlt, hall, hfirst⟩
      · right
        refine ⟨0, Nat.succ_pos _, ?_, h, ?_, ?_⟩
        · rw [gcwLoop_cons_lt pose wp rest i m best h, heq]
          simp
        · intro wp2 hwp2
          rcases List.mem_cons.mp hwp2 with rfl | hwp2
          · exact le_refl _
          · exact hall _ hwp2
        · intro j2 hj2
          exact absurd hj2 (Nat.not_lt_zero _)
      · right
        refine ⟨j + 1, Nat.succ_lt_succ hj, ?_, lt_trans hlt h, ?_, ?_⟩
        · rw [gcwLoop_cons_lt pose wp rest i m best h, heq]
          have e : i + 1 + j = i + (j + 1) := by omega
          rw [e]
          rfl
        · intro wp2 hwp2
          rcases List.mem_cons.mp hwp2 with rfl | hwp2
          · exact le_of_lt hlt
          · exact hall _ hwp2
        · intro j2 hj2
          cases j2 with
          | zero => exact hlt
          | succ j3 => exact hfirst j3 (Nat.lt_of_succ_lt_succ hj2)
    · rcases ih (i + 1) m best with ⟨heq, hall⟩ | ⟨j, hj, heq, hlt, hall, hfirst⟩
      · left
        refine ⟨?_, ?_⟩
        · rw [gcwLoop_cons_ge pose wp rest i m best h]
          exact heq
        · intro wp2 hwp2
          rcases List.mem_cons.mp hwp2 with rfl | hwp2
          · exact le_of_not_lt h
          · exact hall _ hwp2
      · right
        refine ⟨j + 1, Nat.succ_lt_succ hj, ?_, hlt, ?_, ?_⟩
        · rw [gcwLoop_cons_ge pose wp rest i m best h, heq]
          have e : i + 1 + j = i + (j + 1) := by omega
          rw [e]
          rfl
        · intro wp2 hwp2
          rcases List.mem_cons.mp hwp2 with rfl | hwp2
          · exact le_of_lt (lt_of_lt_of_le hlt (le_of_not_lt h))
          · exact hall _ hwp2
        · intro j2 hj2
          cases j2 with
          | zero => exact lt_of_lt_of_le hlt (le_of_not_lt h)
          | succ j3 => exact hfirst j3 (Nat.lt_of_succ_lt_succ hj2)

/-- C5: `get_closest_waypoint` returns -1 exactly when the path is unset or
empty, and on a non-empty path it returns the index of the waypoint minimizing
squared planar distance to the query point, taking the first (lowest) index
when several achieve the minimum. -/
theorem C5_nearest_waypoint (pose : Point2) (wps : List Point2) (hne : wps ≠ []) :
    get_closest_waypoint none pose = -1 ∧
    get_closest_waypoint (some []) pose = -1 ∧
    ∃ k : Nat, ∃ hk : k < wps.length,
      get_closest_waypoint (some wps) pose = Int.ofNat k ∧
      (∀ j : Nat, ∀ hj : j < wps.length,
        dist2 (wps.get ⟨k, hk⟩) pose ≤ dist2 (wps.get ⟨j, hj⟩) pose) ∧
      (∀ j : Nat, ∀ hj : j < k,
        dist2 (wps.get ⟨k, hk⟩) pose < dist2 (wps.get ⟨j, Nat.lt_trans hj hk⟩) pose) := by
  refine ⟨rfl, rfl, ?_⟩
  rcases wps with _ | ⟨w, ws⟩
  · exact absurd rfl hne
  · have h0 : get_closest_waypoint (some (w :: ws)) pose =
        (gcwLoop pose ws 1 (some (dist2 w pose)) (Int.ofNat 0)).2 := rfl
    rcases gcwLoop_spec pose ws 1 (dist2 w pose) (Int.ofNat 0) with
      ⟨heq, hall⟩ | ⟨j, hj, heq, hlt, hall, hfirst⟩
    · refine ⟨0, Nat.succ_pos _, ?_, ?_, ?_⟩
      · rw [h0, heq]
      · intro j hjl
        cases j with
        | zero => exact le_refl _
        | succ j2 => exact hall _ (List.get_mem ws j2 (Nat.lt_of_succ_lt_succ hjl))
      · intro j hjk
        exact absurd hjk (Nat.not_lt_zero _)
    · refine ⟨j + 1, Nat.succ_lt_succ hj, ?_, ?_, ?_⟩
      · rw [h0, heq]
        have e : 1 + j = j + 1 := Nat.add_comm 1 j
        rw [e]
      · intro j2 hj2
        cases j2 with
        | zero => exact le_of_lt hlt
        | succ j3 => exact hall _ (List.get_mem ws j3 (Nat.lt_of_succ_lt_succ hj2))
      · intro j2 hj2
        cases j2 with
        | zero => exact hlt
        | succ j3 => exact hfirst j3 (Nat.lt_of_succ_lt_succ hj2)

/-- C5 witness: the nearest-waypoint theorem applied to the path
[(3,0), (1,0), (1,0)] and query (0,0): index 1 is the first of the two tied
minimizers. -/
theorem C5_nearest_waypoint_witness :
    get_closest_waypoint none ⟨0, 0⟩ = -1 ∧
    get_closest_waypoint (some []) ⟨0, 0⟩ = -1 ∧
    ∃ k : Nat, ∃ hk : k < ([⟨3, 0⟩, ⟨1, 0⟩, ⟨1, 0⟩] : List Point2).length,
      get_closest_waypoint (some [⟨3, 0⟩, ⟨1, 0⟩, ⟨1, 0⟩]) ⟨0, 0⟩ = Int.ofNat k ∧
      (∀ j : Nat, ∀ hj : j < ([⟨3, 0⟩, ⟨1, 0⟩, ⟨1, 0⟩] : List Point2).length,
        dist2 (([⟨3, 0⟩, ⟨1, 0⟩, ⟨1, 0⟩] : List Point2).get ⟨k, hk⟩) ⟨0, 0⟩ ≤
          dist2 (([⟨3, 0⟩, ⟨1, 0⟩, ⟨1, 0⟩] : List Point2).get ⟨j, hj⟩) ⟨0, 0⟩) ∧
      (∀ j : Nat, ∀ hj : j < k,
        dist2 (([⟨3, 0⟩, ⟨1, 0⟩, ⟨1, 0⟩] : List Point2).get ⟨k, hk⟩) ⟨0, 0⟩ <
          dist2 (([⟨3, 0⟩, ⟨1, 0⟩, ⟨1, 0⟩] : List Point2).get ⟨j, Nat.lt_trans hj hk⟩) ⟨0, 0⟩) :=
  C5_nearest_waypoint ⟨0, 0⟩ [⟨3, 0⟩, ⟨1, 0⟩, ⟨1, 0⟩] (by simp)

/-- Invariant of the stop-line scan of lines 228-234: either no stop line gets
strictly below the incoming minimum and the incoming accumulators are returned
unchanged, or the scan returns a stop line whose squared distance is below the
incoming minimum and minimal among all stop lines of the list. -/
theorem nearestStopLoop_spec (lp : Point2) :
    ∀ (sls : List (ℚ × ℚ)) (m : ℚ) (sp : Point2),
      (nearestStopLoop lp sls m sp = (m, sp) ∧ ∀ sl ∈ sls, m ≤ sldist sl lp) ∨
      (∃ sl ∈ sls, nearestStopLoop lp sls m sp = (sldist sl lp, ⟨sl.1, sl.2⟩) ∧
        sldist sl lp < m ∧ ∀ sl2 ∈ sls, sldist sl lp ≤ sldist sl2 lp) := by
  intro sls
  induction sls with
  | nil =>
    intro m sp
    left
    exact ⟨rfl, by simp⟩
  | cons sl rest ih =>
    intro m sp
    have hunfp : ∀ h : sldist sl lp < m,
        nearestStopLoop lp (sl :: rest) m sp =
          nearestStopLoop lp rest (sldist sl lp) ⟨sl.1, sl.2⟩ := by
      intro h
      simp [nearestStopLoop, h]
    have hunfn : ∀ h : ¬ sldist sl lp < m,
        nearestStopLoop lp (sl :: rest) m sp = nearestStopLoop lp rest m sp := by
      intro h
      simp [nearestStopLoop, h]
    by_cases h : sldist sl lp < m
    · rcases ih (sldist sl lp) ⟨sl.1, sl.2⟩ with ⟨heq, hall⟩ | ⟨sl2, hmem, heq, hlt, hall⟩
      · right
        refine ⟨sl, List.mem_cons_self sl rest, ?_, h, ?_⟩
        · rw [hunfp h]
          exact heq
        · intro sl2 hsl2
          rcases List.mem_cons.mp hsl2 with rfl | hsl2
          · exact le_refl _
          · exact hall _ hsl2
      · right
        refine ⟨sl2, List.mem_cons_of_mem sl hmem, ?_, lt_trans hlt h, ?_⟩
        · rw [hunfp h]
          exact heq
        · intro sl3 hsl3
          rcases List.mem_cons.mp hsl3 with rfl | hsl3
          · exact le_of_lt hlt
          · exact hall _ hsl3
    · rcases ih m sp with ⟨heq, hall⟩ | ⟨sl2, hmem, heq, hlt, hall⟩
      · left
        refine ⟨?_, ?_⟩
        · rw [hunfn h]
          exact heq
        · intro sl2 hsl2
          rcases List.mem_cons.mp hsl2 with rfl | hsl2
          · exact le_of_not_lt h
          · exact hall _ hsl2
      · right
        refine ⟨sl2, List.mem_cons_of_mem sl hmem, ?_, hlt, ?_⟩
        · rw [hunfn h]
          exact heq
        · intro sl3 hsl3
          rcases List.mem_cons.mp hsl3 with rfl | hsl3
          · exact le_of_lt (lt_of_lt_of_le hlt (le_of_not_lt h))
          · exact hall _ hsl3

/-- C9 counterexample: a light at (2000, 0) with the single stop line (1, 1).
That stop line trivially minimizes the squared distance (it is the only one),
but its squared distance 3996002 is not below the 1000000 initialization of
`min_dist`, so the scan never overwrites `stop_pose`: the selected stop
position stays at the incoming (0, 0), which is not the minimizing stop line,
contrary to the claim. -/
theorem C9_cex :
    nearestStopLoop ⟨2000, 0⟩ [(1, 1)] 1000000 ⟨0, 0⟩ = (1000000, ⟨0, 0⟩) ∧
    (∀ sl ∈ [((1 : ℚ), (1 : ℚ))], sldist sl ⟨2000, 0⟩ ≤ sldist (1, 1) ⟨2000, 0⟩) ∧
    (⟨0, 0⟩ : Point2) ≠ ⟨1, 1⟩ := by
  refine ⟨by with_unfolding_all rfl, ?_, ?_⟩
  · intro sl hsl
    rcases List.mem_cons.mp hsl with rfl | hsl
    · exact le_refl _
    · exact absurd hsl (List.not_mem_nil sl)
  · intro h
    have hx : (0 : ℚ) = 1 := congrArg Point2.x h
    exact absurd hx (by norm_num)

/-- C9 (amended): the stop position selected for a light is the stop line
minimizing squared planar distance to the light, provided some stop line lies
at squared distance strictly below 1000000 (the initialization of `min_dist`
at line 227); otherwise the shared `stop_pose` keeps the value left by the
previous light (or the zero-initialized Pose for the first light). -/
theorem C9_nearest_stop (lp : Point2) (sls : List (ℚ × ℚ)) (sp : Point2)
    (hlt : ∃ sl ∈ sls, sldist sl lp < 1000000) :
    ∃ sl ∈ sls, (nearestStopLoop lp sls 1000000 sp).2 = ⟨sl.1, sl.2⟩ ∧
      ∀ sl2 ∈ sls, sldist sl lp ≤ sldist sl2 lp := by
  rcases nearestStopLoop_spec lp sls 1000000 sp with ⟨heq, hall⟩ | ⟨sl, hmem, heq, hless, hall⟩
  · rcases hlt with ⟨sl, hmem, hsl⟩
    exact absurd hsl (not_lt.mpr (hall sl hmem))
  · refine ⟨sl, hmem, ?_, hall⟩
    rw [heq]

/-- C9 witness: the amended nearest-stop-line theorem applied to a light at
(0, 0) with stop lines [(2, 0), (0, 0)] and incoming stop pose (9, 9): the
selected stop position is the minimizing stop line (0, 0). -/
theorem C9_nearest_stop_witness :
    ∃ sl ∈ [((2 : ℚ), (0 : ℚ)), (0, 0)],
      (nearestStopLoop ⟨0, 0⟩ [((2 : ℚ), (0 : ℚ)), (0, 0)] 1000000 ⟨9, 9⟩).2 = ⟨sl.1, sl.2⟩ ∧
      ∀ sl2 ∈ [((2 : ℚ), (0 : ℚ)), (0, 0)], sldist sl ⟨0, 0⟩ ≤ sldist sl2 ⟨0, 0⟩ :=
  C9_nearest_stop ⟨0, 0⟩ [((2 : ℚ), (0 : ℚ)), (0, 0)] ⟨9, 9⟩
    ⟨(2, 0), List.mem_cons_self _ _, by with_unfolding_all decide⟩

/-- Unfolding: candidate head light starting with no best index yet. -/
theorem assocLoop_cons_cand_none (w : Option (List Point2)) (sls : List (ℚ × ℚ)) (car : Int)
    (li : Light) (rest : List Light) (sp : Point2) (lt : Option Light)
    (hc : car ≤ lightWp w sls li sp ∧ lightWp w sls li sp ≠ -1) :
    assocLoop w sls car (li :: rest) sp none lt =
      assocLoop w sls car rest (nextStopPose sls li sp) (some (lightWp w sls li sp)) (some li) := by
  simp [assocLoop, hc]

/-- Unfolding: candidate head light improving on the running best index. -/
theorem assocLoop_cons_cand_lt (w : Option (List Point2)) (sls : List (ℚ × ℚ)) (car : Int)
    (li : Light) (rest : List Light) (sp : Point2) (lw : Int) (lt : Option Light)
    (hc : car ≤ lightWp w sls li sp ∧ lightWp w sls li sp ≠ -1)
    (hlt : lightWp w sls li sp < lw) :
    assocLoop w sls car (li :: rest) sp (some lw) lt =
      assocLoop w sls car rest (nextStopPose sls li sp) (some (lightWp w sls li sp)) (some li) := by
  simp [assocLoop, hc, hlt]

/-- Unfolding: candidate head light not improving on the running best index. -/
theorem assocLoop_cons_cand_ge (w : Option (List Point2)) (sls : List (ℚ × ℚ)) (car : Int)
    (li : Light) (rest : List Light) (sp : Point2) (lw : Int) (lt : Option Light)
    (hc : car ≤ lightWp w sls li sp ∧ lightWp w sls li sp ≠ -1)
    (hge : ¬ lightWp w sls li sp < lw) :
    assocLoop w sls car (li :: rest) sp (some lw) lt =
      assocLoop w sls car rest (nextStopPose sls li sp) (some lw) lt := by
  simp [assocLoop, hc, hge]

/-- Unfolding: non-candidate head light is skipped. -/
theorem assocLoop_cons_skip (w : Option (List Point2)) (sls : List (ℚ × ℚ)) (car : Int)
    (li : Light) (rest : List Light) (sp : Point2) (lwp : Option Int) (lt : Option Light)
    (hc : ¬ (car ≤ lightWp w sls li sp ∧ lightWp w sls li sp ≠ -1)) :
    assocLoop w sls car (li :: rest) sp lwp lt =
      assocLoop w sls car rest (nextStopPose sls li sp) lwp lt := by
  simp [assocLoop, hc]

/-- Unfolding: the candidate list of a candidate head light. -/
theorem candList_cons_cand (w : Option (List Point2)) (sls : List (ℚ × ℚ)) (car : Int)
    (li : Light) (rest : List Light) (sp : Point2)
    (hc : car ≤ lightWp w sls li sp ∧ lightWp w sls li sp ≠ -1) :
    candList w sls car (li :: rest) sp =
      lightWp w sls li sp :: candList w sls car rest (nextStopPose sls li sp) := by
  simp [candList, hc]

/-- Unfolding: the candidate list of a non-candidate head light. -/
theorem candList_cons_skip (w : Option (List Point2)) (sls : List (ℚ × ℚ)) (car : Int)
    (li : Light) (rest : List Light) (sp : Point2)
    (hc : ¬ (car ≤ lightWp w sls li sp ∧ lightWp w sls li sp ≠ -1)) :
    candList w sls car (li :: rest) sp =
      candList w sls car rest (nextStopPose sls li sp) := by
  simp [candList, hc]

/-- Every recorded candidate index passed the filter of line 237: it is at or
ahead of the car index and is not the -1 sentinel. -/
theorem candList_mem (w : Option (List Point2)) (sls : List (ℚ × ℚ)) (car : Int) :
    ∀ (ls : List Light) (sp : Point2) (c : Int),
      c ∈ candList w sls car ls sp → car ≤ c ∧ c ≠ -1 := by
  intro ls
  induction ls with
  | nil =>
    intro sp c hc
    simp [candList] at hc
  | cons li rest ih =>
    intro sp c hc
    by_cases h : car ≤ lightWp w sls li sp ∧ lightWp w sls li sp ≠ -1
    · rw [candList_cons_cand w sls car li rest sp h] at hc
      rcases List.mem_cons.mp hc with rfl | hc2
      · exact h
      · exact ih _ _ hc2
    · rw [candList_cons_skip w sls car li rest sp h] at hc
      exact ih _ _ hc

/-- Invariant of the light loop of lines 223-240: the final best index is
`none` exactly when the incoming best was `none` and no light of the list is a
candidate, and otherwise it is the minimum of the incoming best and all
recorded candidate indices. -/
theorem assocLoop_spec (w : Option (List Point2)) (sls : List (ℚ × ℚ)) (car : Int) :
    ∀ (ls : List Light) (sp : Point2) (lwp : Option Int) (lt : Option Light),
      ((assocLoop w sls car ls sp lwp lt).2.1 = none →
        lwp = none ∧ candList w sls car ls sp = []) ∧
      (∀ v : Int, (assocLoop w sls car ls sp lwp lt).2.1 = some v →
        v ∈ lwp.toList ++ candList w sls car ls sp ∧
        ∀ c ∈ lwp.toList ++ candList w sls car ls sp, v ≤ c) := by
  intro ls
  induction ls with
  | nil =>
    intro sp lwp lt
    constructor
    · intro h
      exact ⟨h, rfl⟩
    · intro v hv
      have hv2 : lwp = some v := hv
      subst hv2
      constructor
      · exact List.mem_cons_self _ _
      · intro c hcm
        rcases List.mem_cons.mp hcm with rfl | hcm2
        · exact le_refl _
        · exact absurd hcm2 (List.not_mem_nil c)
  | cons li rest ih =>
    intro sp lwp lt
    by_cases hc : car ≤ lightWp w sls li sp ∧ lightWp w sls li sp ≠ -1
    · rcases lwp with _ | lw
      · constructor
        · intro h
          rw [assocLoop_cons_cand_none w sls car li rest sp lt hc] at h
          rcases (ih _ _ _).1 h with ⟨h1, _⟩
          exact absurd h1 (by simp)
        · intro v hv
          rw [assocLoop_cons_cand_none w sls car li rest sp lt hc] at hv
          rcases (ih _ _ _).2 v hv with ⟨hmem, hall⟩
          rw [candList_cons_cand w sls car li rest sp hc]
          exact ⟨hmem, hall⟩
      · by_cases hlt : lightWp w sls li sp < lw
        · constructor
          · intro h
            rw [assocLoop_cons_cand_lt w sls car li rest sp lw lt hc hlt] at h
            rcases (ih _ _ _).1 h with ⟨h1, _⟩
            exact absurd h1 (by simp)
          · intro v hv
            rw [assocLoop_cons_cand_lt w sls car li rest sp lw lt hc hlt] at hv
            rcases (ih _ _ _).2 v hv with ⟨hmem, hall⟩
            rw [candList_cons_cand w sls car li rest sp hc]
            have hvwi : v ≤ lightWp w sls li sp := hall _ (List.mem_cons_self _ _)
            constructor
            · exact List.mem_cons_of_mem lw hmem
            · intro c hcm
              rcases List.mem_cons.mp hcm with rfl | hcm2
              · exact le_trans hvwi (le_of_lt hlt)
              · exact hall _ hcm2
        · constructor
          · intro h
            rw [assocLoop_cons_cand_ge w sls car li rest sp lw lt hc hlt] at h
            rcases (ih _ _ _).1 h with ⟨h1, _⟩
            exact absurd h1 (by simp)
          · intro v hv
            rw [assocLoop_cons_cand_ge w sls car li rest sp lw lt hc hlt] at hv
            rcases (ih _ _ _).2 v hv with ⟨hmem, hall⟩
            rw [candList_cons_cand w sls car li rest sp hc]
            have hvlw : v ≤ lw := hall _ (List.mem_cons_self _ _)
            constructor
            · rcases List.mem_cons.mp hmem with rfl | hmem2
              · exact List.mem_cons_self _ _
              · exact List.mem_cons_of_mem _ (List.mem_cons_of_mem _ hmem2)
            · intro c hcm
              rcases List.mem_cons.mp hcm with rfl | hcm2
              · exact hvlw
              · rcases List.mem_cons.mp hcm2 with rfl | hcm3
                · exact le_trans hvlw (le_of_not_lt hlt)
                · exact hall _ (List.mem_cons_of_mem _ hcm3)
    · constructor
      · intro h
        rw [assocLoop_cons_skip w sls car li rest sp lwp lt hc] at h
        rcases (ih _ _ _).1 h with ⟨h1, h2⟩
        refine ⟨h1, ?_⟩
        rw [candList_cons_skip w sls car li rest sp hc]
        exact h2
      · intro v hv
        rw [assocLoop_cons_skip w sls car li rest sp lwp lt hc] at hv
        rcases (ih _ _ _).2 v hv with ⟨hmem, hall⟩
        rw [candList_cons_skip w sls car li rest sp hc]
        exact ⟨hmem, hall⟩

/-- C6: whenever `process_traffic_lights` returns a stop index other than -1,
that index is at or ahead of the vehicle's current path index, and it is the
smallest of all recorded candidate resolved stop indices (those that pass the
at-or-ahead and not-(-1) filter), regardless of raw geometric distances. -/
theorem C6_min_ahead (gls : Light → GLSResult) (sls : List (ℚ × ℚ)) (p : Point2)
    (w : Option (List Point2)) (ls : List Light) (lw : Int) (st : GLSResult) (s2 : DetectorSnap)
    (hres : process_traffic_lights gls sls ⟨some p, w, ls⟩ = Except.ok ((lw, st), s2))
    (hlw : lw ≠ -1) :
    get_closest_waypoint w p ≤ lw ∧
    lw ∈ candList w sls (get_closest_waypoint w p) ls ⟨0, 0⟩ ∧
    ∀ c ∈ candList w sls (get_closest_waypoint w p) ls ⟨0, 0⟩, lw ≤ c := by
  simp only [process_traffic_lights] at hres
  split at hres
  · exact absurd hres (by simp)
  · rename_i lw0 li heq1 heq2
    split at hres
    · simp only [Except.ok.injEq, Prod.mk.injEq] at hres
      obtain ⟨⟨hl, _⟩, _⟩ := hres
      subst hl
      rcases (assocLoop_spec w sls (get_closest_waypoint w p) ls ⟨0, 0⟩ none none).2 lw0 heq1
        with ⟨hmem, hall⟩
      exact ⟨(candList_mem w sls _ ls ⟨0, 0⟩ lw0 hmem).1, hmem, hall⟩
    · simp only [Except.ok.injEq, Prod.mk.injEq] at hres
      exact absurd hres.1.1.symm hlw
  · simp only [Except.ok.injEq, Prod.mk.injEq] at hres
    exact absurd hres.1.1.symm hlw

/-- C6 witness: the minimality theorem applied to the concrete scenario with
path [(0,0), (1,0), (2,0)], vehicle at (0,0), one light at (2,1) and the stop
line (2,0): the returned stop index 2 is ahead of the car index 0 and minimal
among the candidates. -/
theorem C6_min_ahead_witness :
    get_closest_waypoint (some [⟨0, 0⟩, ⟨1, 0⟩, ⟨2, 0⟩]) ⟨0, 0⟩ ≤ 2 ∧
    (2 : Int) ∈ candList (some [⟨0, 0⟩, ⟨1, 0⟩, ⟨2, 0⟩]) [(2, 0)]
      (get_closest_waypoint (some [⟨0, 0⟩, ⟨1, 0⟩, ⟨2, 0⟩]) ⟨0, 0⟩) [⟨⟨2, 1, 0⟩, 4⟩] ⟨0, 0⟩ ∧
    ∀ c ∈ candList (some [⟨0, 0⟩, ⟨1, 0⟩, ⟨2, 0⟩]) [(2, 0)]
      (get_closest_waypoint (some [⟨0, 0⟩, ⟨1, 0⟩, ⟨2, 0⟩]) ⟨0, 0⟩) [⟨⟨2, 1, 0⟩, 4⟩] ⟨0, 0⟩,
      (2 : Int) ≤ c :=
  C6_min_ahead glsStub [(2, 0)] ⟨0, 0⟩ (some [⟨0, 0⟩, ⟨1, 0⟩, ⟨2, 0⟩]) [⟨⟨2, 1, 0⟩, 4⟩] 2
    (GLSResult.color UNKNOWN) ⟨some ⟨0, 0⟩, some [⟨0, 0⟩, ⟨1, 0⟩, ⟨2, 0⟩], [⟨⟨2, 1, 0⟩, 4⟩]⟩
    (by with_unfolding_all rfl) (by decide)

/-- C3 counterexample: a call of `process_traffic_lights` on a snapshot with a
stored path but no pose returns the none outcome and, per line 249, clears the
stored path (`self.waypoints = None`): the stored Path is mutated, contrary to
the claim that the call leaves it unchanged. -/
theorem C3_cex :
    process_traffic_lights glsStub [] ⟨none, some [⟨0, 0⟩], []⟩ =
      Except.ok ((-1, GLSResult.color UNKNOWN), ⟨none, none, []⟩) ∧
    (⟨none, none, []⟩ : DetectorSnap).waypoints ≠
      (⟨none, some [⟨0, 0⟩], []⟩ : DetectorSnap).waypoints := by
  refine ⟨rfl, ?_⟩
  simp

/-- C3 (amended): `process_traffic_lights` never mutates the stored pose or the
stored Light set, and it leaves the stored Path unchanged exactly on the path
that returns a visible light's stop index; whenever it returns the none outcome
(stop index -1), line 249 sets the stored Path to unset (`None`). -/
theorem C3_frame (gls : Light → GLSResult) (sls : List (ℚ × ℚ)) (po : Option Point2)
    (w : Option (List Point2)) (ls : List Light) (r : Int × GLSResult) (s2 : DetectorSnap)
    (hres : process_traffic_lights gls sls ⟨po, w, ls⟩ = Except.ok (r, s2)) :
    s2.pose = po ∧ s2.lights = ls ∧
    (r.1 ≠ -1 → s2.waypoints = w) ∧ (r.1 = -1 → s2.waypoints = none) := by
  rcases po with _ | p
  · simp only [process_traffic_lights, Except.ok.injEq, Prod.mk.injEq] at hres
    obtain ⟨hr, hs⟩ := hres
    subst hr
    subst hs
    exact ⟨rfl, rfl, fun h => absurd rfl h, fun _ => rfl⟩
  · simp only [process_traffic_lights] at hres
    split at hres
    · exact absurd hres (by simp)
    · rename_i lw0 li heq1 heq2
      split at hres
      · simp only [Except.ok.injEq, Prod.mk.injEq] at hres
        obtain ⟨hr, hs⟩ := hres
        subst hr
        subst hs
        have hne : lw0 ≠ -1 := by
          rcases (assocLoop_spec w sls (get_closest_waypoint w p) ls ⟨0, 0⟩ none none).2 lw0 heq1
            with ⟨hmem, _⟩
          exact (candList_mem w sls _ ls ⟨0, 0⟩ lw0 hmem).2
        exact ⟨rfl, rfl, fun _ => rfl, fun h => absurd h hne⟩
      · simp only [Except.ok.injEq, Prod.mk.injEq] at hres
        obtain ⟨hr, hs⟩ := hres
        subst hr
        subst hs
        exact ⟨rfl, rfl, fun h => absurd rfl h, fun _ => rfl⟩
    · simp only [Except.ok.injEq, Prod.mk.injEq] at hres
      obtain ⟨hr, hs⟩ := hres
      subst hr
      subst hs
      exact ⟨rfl, rfl, fun h => absurd rfl h, fun _ => rfl⟩

/-- C3 witness: the frame theorem applied to the concrete no-pose call of the
counterexample: the pose and light set are unchanged and the returned -1
outcome comes with the stored path cleared. -/
theorem C3_frame_witness :
    (⟨none, none, []⟩ : DetectorSnap).pose = none ∧
    (⟨none, none, []⟩ : DetectorSnap).lights = ([] : List Light) ∧
    (((-1 : Int), GLSResult.color UNKNOWN).1 ≠ -1 →
      (⟨none, none, []⟩ : DetectorSnap).waypoints = some [⟨0, 0⟩]) ∧
    (((-1 : Int), GLSResult.color UNKNOWN).1 = -1 →
      (⟨none, none, []⟩ : DetectorSnap).waypoints = none) :=
  C3_frame glsStub [] none (some [⟨0, 0⟩]) [] (-1, GLSResult.color UNKNOWN) ⟨none, none, []⟩ rfl

end TLDetector
